import Mathlib

/-!
# Shallow embedding of the superviseInfo incremental crawler

This file embeds the core data model and operations of the repository
(`storage.py`, `base_crawler.py`, `crawler_factory.py`, `crawler_manager.py`,
`sichuan_fgw_crawler.py`, `example_other_site_crawler.py`) as executable Lean
definitions, and proves the claims of the specification about them.

Modelling conventions:
* A Python record dict with keys title, url and optionally discovered_at
  becomes the structure `Rec`.
* File-system state (one JSON data file and one history file per source)
  becomes an association list keyed by the derived file name; the md5 hash
  used for name-less sources is modelled by the constructor `FileKey.byHash`
  carrying the url (md5 is treated as injective, which is the property the
  code relies on).
* `datetime.now()` becomes an explicit `now : Nat` parameter.
* Network fetches and HTML extraction are oracles passed as functions.
-/

set_option maxRecDepth 8192

namespace SuperviseInfo

/-- One extracted record, as produced by `extract_search_results` and stored
in the per-source JSON `items` array (`storage.py`). -/
structure Rec where
  title : String
  url : String
  discovered_at : Option String := none
deriving DecidableEq, Repr

/-! ## Storage core (`storage.py`, `DataStorage.save_data` lines 59-69) -/

/-- Embeds `existing_urls`, the url set comprehension over the stored items — the url set
of the already-stored items (membership is what matters, modelled as the
list of urls). -/
def existingUrls (items : List Rec) : List String :=
  items.map (·.url)

/-- Embeds the `new_items` list comprehension: the input records whose url
is not in `existing_urls` (`storage.py` line 66). -/
def newItems (existing results : List Rec) : List Rec :=
  results.filter (fun r => !((existingUrls existing).contains r.url))

/-- Embeds `all_items = existing_items + new_items` (`storage.py` line 69). -/
def allItems (existing results : List Rec) : List Rec :=
  existing ++ newItems existing results

theorem mem_existingUrls {items : List Rec} {u : String} :
    u ∈ existingUrls items ↔ ∃ r ∈ items, r.url = u := by
  simp [existingUrls]

theorem mem_newItems {existing results : List Rec} {r : Rec} :
    r ∈ newItems existing results ↔
      r ∈ results ∧ r.url ∉ existingUrls existing := by
  simp [newItems]

/-- Every url of an input record is present among the urls of `all_items`
after a save: either it was already stored, or the record was appended. -/
theorem url_mem_allItems {existing results : List Rec} {r : Rec}
    (hr : r ∈ results) : r.url ∈ existingUrls (allItems existing results) := by
  by_cases h : r.url ∈ existingUrls existing
  · simp only [allItems, existingUrls, List.map_append, List.mem_append]
    exact Or.inl h
  · have : r ∈ newItems existing results := mem_newItems.mpr ⟨hr, h⟩
    simp only [allItems, existingUrls, List.map_append, List.mem_append]
    exact Or.inr (List.mem_map_of_mem _ this)

/-- Core of idempotence: filtering the same input against the post-save
store removes everything. -/
theorem newItems_allItems (existing results : List Rec) :
    newItems (allItems existing results) results = [] := by
  apply List.filter_eq_nil_iff.mpr
  intro r hr
  simp only [Bool.not_eq_true', Bool.not_eq_false]
  have h := @url_mem_allItems existing results r hr
  exact List.contains_iff_exists_mem_beq.mpr ⟨r.url, h, by simp⟩

/-! ## History log (`storage.py`, `DataStorage._save_history` lines 91-120) -/

/-- One entry of the per-source history file. -/
structure HistoryEntry where
  timestamp : Nat
  source_key : Option String
  source_name : Option String
  new_items_count : Nat
  new_items : List Rec
deriving DecidableEq, Repr

/-- The history entry built for one save (`storage.py` lines 97-103). -/
def mkHistoryEntry (now : Nat) (source_key source_name : Option String)
    (new_items : List Rec) : HistoryEntry :=
  ⟨now, source_key, source_name, new_items.length, new_items⟩

/-- Embeds the cap `history = history[-50:]` applied when over 50 entries (`storage.py` lines
116-117): keep only the most recent 50 entries. -/
def capHistory (h : List HistoryEntry) : List HistoryEntry :=
  if h.length > 50 then h.drop (h.length - 50) else h

/-- Append one entry, then apply the 50-entry cap (`storage.py` lines
113-117). -/
def histAppend (h : List HistoryEntry) (e : HistoryEntry) : List HistoryEntry :=
  capHistory (h ++ [e])

/-- Embeds `_save_history` acting on the (possibly absent) history file: returns
without touching or creating the file when `new_items` is empty; otherwise
loads the existing list (absent file ⇒ `[]`), appends, caps at 50, writes. -/
def saveHistoryStep (now : Nat) (source_key source_name : Option String)
    (file : Option (List HistoryEntry)) (new_items : List Rec) :
    Option (List HistoryEntry) :=
  if new_items.isEmpty then file
  else some (histAppend (file.getD []) (mkHistoryEntry now source_key source_name new_items))

/-! ## File identity (`storage.py`, `_get_file_name` lines 21-30) -/

/-- Embeds the `re.sub` cleaning of `source_name` (replace every character
outside `\w`, the CJK range, hyphen and underscore by an underscore): keep word
characters (alphanumerics and underscore; the CJK range is inside unicode
`\w` as well), and hyphen; everything else becomes `_`. -/
def cleanFileName (name : String) : String :=
  String.mk (name.data.map (fun c =>
    if c.isAlphanum || c = '_' || c = '-' ||
       (0x4e00 ≤ c.toNat && c.toNat ≤ 0x9fff) then c else '_'))

/-- Derived file identity: the cleaned display name when one is present
(Python truthiness: `None` and `""` both fall back), else the md5 hash of
the url. md5 is modelled by the injective constructor `byHash`. -/
inductive FileKey where
  | byName (clean : String)
  | byHash (url : String)
deriving DecidableEq, Repr

/-- Embeds `_get_file_name(url, source_name)` (`storage.py` lines 21-30). -/
def getFileName (url : String) (source_name : Option String) : FileKey :=
  match source_name with
  | some n => if n = "" then .byHash url else .byName (cleanFileName n)
  | none => .byHash url

/-! ## File-system state -/

/-- Read the file stored under key `k`, if any. -/
def lookupFile {α : Type} (fs : List (FileKey × α)) (k : FileKey) : Option α :=
  (fs.find? (fun p => p.1 = k)).map (·.2)

/-- Overwrite-in-place: replace the entry under `k`, or create it. -/
def writeFile {α : Type} (fs : List (FileKey × α)) (k : FileKey) (v : α) :
    List (FileKey × α) :=
  if (fs.find? (fun p => p.1 = k)).isSome then
    fs.map (fun p => if p.1 = k then (k, v) else p)
  else fs ++ [(k, v)]

/-- The persisted per-source JSON object (`updated_data`, `storage.py`
lines 72-79). -/
structure StoredData where
  url : String
  source_key : Option String
  source_name : Option String
  last_updated : Nat
  total_count : Nat
  items : List Rec
deriving DecidableEq, Repr

/-- The data directory: data files and history files, keyed by the derived
file identity (`<name>.json` and `<name>_history.json`). -/
structure Storage where
  dataFiles : List (FileKey × StoredData)
  historyFiles : List (FileKey × List HistoryEntry)
deriving DecidableEq, Repr

/-- The empty data directory. -/
def Storage.empty : Storage := ⟨[], []⟩

/-- The `items` currently stored for file key `k` (absent or empty file ⇒
`[]`, matching `load_existing_data` degrading to `{}`). -/
def itemsAt (σ : Storage) (k : FileKey) : List Rec :=
  ((lookupFile σ.dataFiles k).map (·.items)).getD []

/-- Embeds `DataStorage.save_data` (`storage.py` lines 54-89): load the existing
items, filter the input against the existing url set, append, persist the
rebuilt `StoredData` (with `total_count` recomputed and `last_updated` set
to now), record history, and return `(all_items, new_items)`. -/
def save_data (σ : Storage) (now : Nat) (url : String) (results : List Rec)
    (source_key source_name : Option String) :
    Storage × List Rec × List Rec :=
  let k := getFileName url source_name
  let existing := itemsAt σ k
  let new := newItems existing results
  let all := existing ++ new
  let dataFiles' := writeFile σ.dataFiles k
    ⟨url, source_key, source_name, now, all.length, all⟩
  let historyFiles' :=
    match saveHistoryStep now source_key source_name (lookupFile σ.historyFiles k) new with
    | none => σ.historyFiles
    | some h => if new.isEmpty then σ.historyFiles else writeFile σ.historyFiles k h
  (⟨dataFiles', historyFiles'⟩, all, new)

theorem find?_map_update {α : Type} (fs : List (FileKey × α)) (k : FileKey)
    (v : α) (h : (fs.find? (fun p => p.1 = k)).isSome = true) :
    (fs.map (fun p => if p.1 = k then (k, v) else p)).find? (fun p => p.1 = k)
      = some (k, v) := by
  induction fs with
  | nil => simp at h
  | cons p ps ih =>
    by_cases hp : p.1 = k
    · simp [List.find?, hp]
    · rw [List.map_cons, if_neg hp, List.find?_cons_of_neg _ (by simpa using hp)]
      rw [List.find?_cons_of_neg _ (by simpa using hp)] at h
      exact ih h

theorem find?_map_update_other {α : Type} (fs : List (FileKey × α))
    (k k' : FileKey) (v : α) (hne : k' ≠ k) :
    (fs.map (fun p => if p.1 = k then (k, v) else p)).find? (fun p => p.1 = k')
      = fs.find? (fun p => p.1 = k') := by
  induction fs with
  | nil => simp
  | cons p ps ih =>
    by_cases hp : p.1 = k
    · rw [List.map_cons, if_pos hp,
        List.find?_cons_of_neg _ (by simpa using fun h => hne h.symm),
        List.find?_cons_of_neg _ (by simpa using fun h : p.1 = k' => hne (h.symm.trans hp))]
      exact ih
    · rw [List.map_cons, if_neg hp]
      by_cases hp' : p.1 = k'
      · rw [List.find?_cons_of_pos _ (by simpa using hp'),
          List.find?_cons_of_pos _ (by simpa using hp')]
      · rw [List.find?_cons_of_neg _ (by simpa using hp'),
          List.find?_cons_of_neg _ (by simpa using hp')]
        exact ih

theorem lookupFile_writeFile_self {α : Type} (fs : List (FileKey × α))
    (k : FileKey) (v : α) : lookupFile (writeFile fs k v) k = some v := by
  unfold lookupFile writeFile
  by_cases h : (fs.find? (fun p => p.1 = k)).isSome
  · rw [if_pos h, find?_map_update fs k v h]
    rfl
  · rw [if_neg h, List.find?_append]
    simp only [Option.not_isSome_iff_eq_none] at h
    simp [h, List.find?]

theorem lookupFile_writeFile_other {α : Type} (fs : List (FileKey × α))
    (k k' : FileKey) (v : α) (hne : k' ≠ k) :
    lookupFile (writeFile fs k v) k' = lookupFile fs k' := by
  unfold lookupFile writeFile
  by_cases h : (fs.find? (fun p => p.1 = k)).isSome
  · rw [if_pos h, find?_map_update_other fs k k' v hne]
  · rw [if_neg h, List.find?_append]
    have hne' : (k = k') = False := eq_false (fun h' => hne h'.symm)
    simp [List.find?, hne']

/-! ### Basic facts about `save_data` -/

theorem save_data_state (σ : Storage) (now : Nat) (url : String)
    (results : List Rec) (source_key source_name : Option String) :
    (save_data σ now url results source_key source_name).1.dataFiles
      = writeFile σ.dataFiles (getFileName url source_name)
          ⟨url, source_key, source_name, now,
            (allItems (itemsAt σ (getFileName url source_name)) results).length,
            allItems (itemsAt σ (getFileName url source_name)) results⟩ := rfl

theorem save_data_all (σ : Storage) (now : Nat) (url : String)
    (results : List Rec) (source_key source_name : Option String) :
    (save_data σ now url results source_key source_name).2.1
      = allItems (itemsAt σ (getFileName url source_name)) results := rfl

theorem save_data_new (σ : Storage) (now : Nat) (url : String)
    (results : List Rec) (source_key source_name : Option String) :
    (save_data σ now url results source_key source_name).2.2
      = newItems (itemsAt σ (getFileName url source_name)) results := rfl

theorem save_data_itemsAt (σ : Storage) (now : Nat) (url : String)
    (results : List Rec) (source_key source_name : Option String) :
    itemsAt (save_data σ now url results source_key source_name).1
        (getFileName url source_name)
      = allItems (itemsAt σ (getFileName url source_name)) results := by
  rw [itemsAt, save_data_state, lookupFile_writeFile_self]
  rfl

theorem save_data_lookup (σ : Storage) (now : Nat) (url : String)
    (results : List Rec) (source_key source_name : Option String) :
    lookupFile (save_data σ now url results source_key source_name).1.dataFiles
        (getFileName url source_name)
      = some ⟨url, source_key, source_name, now,
          (allItems (itemsAt σ (getFileName url source_name)) results).length,
          allItems (itemsAt σ (getFileName url source_name)) results⟩ := by
  rw [save_data_state, lookupFile_writeFile_self]

/-- C1: Idempotence of save — for every prior store state and every input
record list, saving the identical input twice in a row yields
`new_records = []` on the second call, the same returned `all_records`, and
an unchanged stored `items` sequence. -/
theorem save_data_idempotent (σ : Storage) (now₁ now₂ : Nat) (url : String)
    (results : List Rec) (source_key source_name : Option String) :
    (save_data (save_data σ now₁ url results source_key source_name).1
        now₂ url results source_key source_name).2.2 = [] ∧
    (save_data (save_data σ now₁ url results source_key source_name).1
        now₂ url results source_key source_name).2.1
      = (save_data σ now₁ url results source_key source_name).2.1 ∧
    itemsAt (save_data (save_data σ now₁ url results source_key source_name).1
        now₂ url results source_key source_name).1 (getFileName url source_name)
      = itemsAt (save_data σ now₁ url results source_key source_name).1
          (getFileName url source_name) := by
  have hnew2 : (save_data (save_data σ now₁ url results source_key source_name).1
      now₂ url results source_key source_name).2.2 = [] := by
    rw [save_data_new, save_data_itemsAt, newItems_allItems]
  refine ⟨hnew2, ?_, ?_⟩
  · rw [save_data_all, save_data_all, save_data_itemsAt, allItems,
      newItems_allItems, List.append_nil, allItems]
  · rw [save_data_itemsAt, save_data_itemsAt]
    conv_lhs => rw [allItems, newItems_allItems, List.append_nil]

/-! ### C2: contents of `new_records` -/

/-- Modelled from the spec: "deduplicated among themselves by url (first
occurrence wins if the input itself contains url repeats)" — the intra-input
dedup step the spec attributes to `save_data`. `save_data` itself
(`storage.py` line 66) has no such step. -/
def dedupByUrl (seen : List String) : List Rec → List Rec
  | [] => []
  | r :: rs =>
    if r.url ∈ seen then dedupByUrl seen rs
    else r :: dedupByUrl (r.url :: seen) rs

/-- Modelled from the spec: the description the spec gives of `new_records` —
filter against the existing urls, then dedup among themselves by url. -/
def newItemsSpec (existing results : List Rec) : List Rec :=
  dedupByUrl [] (newItems existing results)

/-- Two input records sharing one url (url repeat inside a single crawl). -/
def recA : Rec := ⟨"A", "http://x/1", none⟩

def recB : Rec := ⟨"B", "http://x/1", none⟩

/-- C2 counterexample: on the input `[recA, recB]` (two records with the
same url) against an empty store, the code keeps BOTH records, while the
claimed intra-input dedup would keep only the first — so `new_records` is
not "deduplicated among themselves by url". -/
theorem newItems_no_intra_dedup :
    newItems [] [recA, recB] = [recA, recB] ∧
    newItemsSpec [] [recA, recB] = [recA] ∧
    newItems [] [recA, recB] ≠ newItemsSpec [] [recA, recB] := by
  refine ⟨rfl, by decide, ?_⟩
  intro h
  have hlen := congrArg List.length h
  rw [(by rfl : newItems [] [recA, recB] = [recA, recB]),
    (by decide : newItemsSpec [] [recA, recB] = [recA])] at hlen
  simp at hlen

/-- C2 (amended): `new_records` equals exactly the input records whose url
is not among the existing stored urls, in input order (a sublist of the
input); repeated urls within the input are NOT collapsed — every occurrence
whose url is unseen is kept, with multiplicities preserved. -/
theorem newItems_characterization (existing results : List Rec) :
    List.Sublist (newItems existing results) results ∧
    (∀ r : Rec, r ∈ newItems existing results ↔
      r ∈ results ∧ r.url ∉ existingUrls existing) ∧
    (∀ r : Rec, r.url ∉ existingUrls existing →
      (newItems existing results).count r = results.count r) := by
  refine ⟨List.filter_sublist _, fun r => mem_newItems, fun r hr => ?_⟩
  rw [newItems, List.count_filter]
  simpa using hr

/-- C2 amended-claim witness: with one url repeat in the input and an empty
store, both occurrences are kept. -/
theorem newItems_characterization_witness :
    (newItems [] [recA, recB]).count recA = [recA, recB].count recA :=
  (newItems_characterization [] [recA, recB]).2.2 recA (by decide)

/-! ### C3: store invariant preserved by every save -/

/-- C3: after any save, the persisted `total_count` equals the length of
`items`, the previously stored items form an unchanged prefix of the new
`items` (append-only), no stored record is removed, and for every
already-stored url the first-stored record (title included) is still the
first record with that url — re-saving a url with a different title leaves
the first-stored title in place. -/
theorem save_data_invariant (σ : Storage) (now : Nat) (url : String)
    (results : List Rec) (source_key source_name : Option String) :
    ∃ d : StoredData,
      lookupFile (save_data σ now url results source_key source_name).1.dataFiles
        (getFileName url source_name) = some d ∧
      d.total_count = d.items.length ∧
      itemsAt σ (getFileName url source_name) <+: d.items ∧
      (∀ r ∈ itemsAt σ (getFileName url source_name), r ∈ d.items) ∧
      (∀ u ∈ existingUrls (itemsAt σ (getFileName url source_name)),
        d.items.find? (fun r => r.url = u)
          = (itemsAt σ (getFileName url source_name)).find? (fun r => r.url = u)) := by
  refine ⟨_, save_data_lookup σ now url results source_key source_name, rfl, ?_, ?_, ?_⟩
  · exact ⟨newItems (itemsAt σ (getFileName url source_name)) results, rfl⟩
  · intro r hr
    exact List.mem_append_left _ hr
  · intro u hu
    show (allItems _ results).find? _ = _
    rw [allItems, List.find?_append]
    rcases hfind : (itemsAt σ (getFileName url source_name)).find?
        (fun r => r.url = u) with _ | r
    · exfalso
      rw [mem_existingUrls] at hu
      obtain ⟨r, hr, hru⟩ := hu
      have := List.find?_eq_none.mp hfind r hr
      simp [hru] at this
    · rw [hfind]
      rfl

/-- C3 witness: the scenario from the spec — a record (title T, url x/1) already stored, the
next crawl returns `[{T2, http://x/1}, {U, http://x/2}]`; the invariant
instance at that input. -/
theorem save_data_invariant_witness :
    ∃ d : StoredData,
      lookupFile (save_data
          ⟨[(FileKey.byHash "http://x", ⟨"http://x", none, none, 0, 1,
              [⟨"T", "http://x/1", none⟩]⟩)], []⟩ 1 "http://x"
          [⟨"T2", "http://x/1", none⟩, ⟨"U", "http://x/2", none⟩]
          none none).1.dataFiles (getFileName "http://x" none) = some d ∧
      d.total_count = d.items.length ∧
      itemsAt ⟨[(FileKey.byHash "http://x", ⟨"http://x", none, none, 0, 1,
          [⟨"T", "http://x/1", none⟩]⟩)], []⟩ (getFileName "http://x" none) <+: d.items ∧
      (∀ r ∈ itemsAt ⟨[(FileKey.byHash "http://x", ⟨"http://x", none, none, 0, 1,
          [⟨"T", "http://x/1", none⟩]⟩)], []⟩ (getFileName "http://x" none), r ∈ d.items) ∧
      (∀ u ∈ existingUrls (itemsAt ⟨[(FileKey.byHash "http://x", ⟨"http://x", none, none, 0, 1,
          [⟨"T", "http://x/1", none⟩]⟩)], []⟩ (getFileName "http://x" none)),
        d.items.find? (fun r => r.url = u)
          = (itemsAt ⟨[(FileKey.byHash "http://x", ⟨"http://x", none, none, 0, 1,
              [⟨"T", "http://x/1", none⟩]⟩)], []⟩ (getFileName "http://x" none)).find?
              (fun r => r.url = u)) :=
  save_data_invariant
    ⟨[(FileKey.byHash "http://x", ⟨"http://x", none, none, 0, 1,
        [⟨"T", "http://x/1", none⟩]⟩)], []⟩ 1 "http://x"
    [⟨"T2", "http://x/1", none⟩, ⟨"U", "http://x/2", none⟩] none none

/-! ### C4: history log maintenance -/

/-- The most recent `n` entries of a list (`history[-n:]`). -/
def lastN {α : Type} (n : Nat) (l : List α) : List α :=
  l.drop (l.length - n)

theorem capHistory_eq_lastN (h : List HistoryEntry) :
    capHistory h = lastN 50 h := by
  unfold capHistory lastN
  by_cases hl : h.length > 50
  · simp [hl]
  · have h0 : h.length - 50 = 0 := by omega
    simp [hl, h0]

theorem lastN_length {α : Type} (n : Nat) (l : List α) :
    (lastN n l).length = min n l.length := by
  unfold lastN
  simp only [List.length_drop]
  omega

theorem lastN_append_lastN {α : Type} (n : Nat) (l es : List α) :
    lastN n (lastN n l ++ es) = lastN n (l ++ es) := by
  by_cases hl : l.length ≤ n
  · have h0 : l.length - n = 0 := by omega
    unfold lastN
    rw [h0, List.drop_zero]
  · unfold lastN
    have hdrop : l.drop (l.length - n) ++ es = (l ++ es).drop (l.length - n) :=
      (List.drop_append_of_le_length (by omega)).symm
    rw [hdrop, List.drop_drop]
    congr 1
    simp only [List.length_drop, List.length_append]
    omega

/-- Folding append-then-cap over a run of save events keeps exactly the
most recent 50 entries. -/
theorem foldl_histAppend_eq_lastN (es : List HistoryEntry) :
    ∀ h0 : List HistoryEntry, h0.length ≤ 50 →
      es.foldl histAppend h0 = lastN 50 (h0 ++ es) := by
  induction es with
  | nil =>
    intro h0 hh0
    have h0' : h0.length - 50 = 0 := by omega
    simp [lastN, h0']
  | cons e es ih =>
    intro h0 hh0
    rw [List.foldl_cons]
    have h1 : (histAppend h0 e).length ≤ 50 := by
      rw [histAppend, capHistory_eq_lastN, lastN_length]
      omega
    rw [ih _ h1, histAppend, capHistory_eq_lastN, lastN_append_lastN,
      List.append_assoc]
    rfl

theorem save_data_history_untouched (σ : Storage) (now : Nat) (url : String)
    (results : List Rec) (source_key source_name : Option String)
    (h : newItems (itemsAt σ (getFileName url source_name)) results = []) :
    (save_data σ now url results source_key source_name).1.historyFiles
      = σ.historyFiles := by
  show (match saveHistoryStep now source_key source_name
      (lookupFile σ.historyFiles (getFileName url source_name))
      (newItems (itemsAt σ (getFileName url source_name)) results) with
    | none => σ.historyFiles
    | some hist =>
      if (newItems (itemsAt σ (getFileName url source_name)) results).isEmpty
      then σ.historyFiles
      else writeFile σ.historyFiles (getFileName url source_name) hist) = σ.historyFiles
  rw [h]
  rcases lookupFile σ.historyFiles (getFileName url source_name) with _ | hist
  · rfl
  · rfl

theorem save_data_history_appended (σ : Storage) (now : Nat) (url : String)
    (results : List Rec) (source_key source_name : Option String)
    (h : newItems (itemsAt σ (getFileName url source_name)) results ≠ []) :
    lookupFile (save_data σ now url results source_key source_name).1.historyFiles
        (getFileName url source_name)
      = some (histAppend
          ((lookupFile σ.historyFiles (getFileName url source_name)).getD [])
          (mkHistoryEntry now source_key source_name
            (newItems (itemsAt σ (getFileName url source_name)) results))) := by
  have hne : (newItems (itemsAt σ (getFileName url source_name)) results).isEmpty
      = false := by
    simpa [List.isEmpty_iff] using h
  show lookupFile (match saveHistoryStep now source_key source_name
      (lookupFile σ.historyFiles (getFileName url source_name))
      (newItems (itemsAt σ (getFileName url source_name)) results) with
    | none => σ.historyFiles
    | some hist =>
      if (newItems (itemsAt σ (getFileName url source_name)) results).isEmpty
      then σ.historyFiles
      else writeFile σ.historyFiles (getFileName url source_name) hist)
      (getFileName url source_name) = _
  rw [saveHistoryStep, if_neg (by simp [hne])]
  simp only [hne, Bool.false_eq_true, if_false]
  exact lookupFile_writeFile_self _ _ _

/-- C4: a `HistoryEntry` is appended iff the save produced a non-empty
`new_records` — an empty-new-items save leaves every history file untouched
(in particular it does not create one) — the append is followed by the
50-entry FIFO cap, and after N saves each producing at least one new item
(starting from no history file) the history is exactly the entries of the
min(N, 50) most recent such saves, oldest evicted first. -/
theorem history_maintenance (σ : Storage) (now : Nat) (url : String)
    (results : List Rec) (source_key source_name : Option String)
    (es : List HistoryEntry) :
    (newItems (itemsAt σ (getFileName url source_name)) results = [] →
      (save_data σ now url results source_key source_name).1.historyFiles
        = σ.historyFiles) ∧
    (newItems (itemsAt σ (getFileName url source_name)) results ≠ [] →
      lookupFile (save_data σ now url results source_key source_name).1.historyFiles
          (getFileName url source_name)
        = some (histAppend
            ((lookupFile σ.historyFiles (getFileName url source_name)).getD [])
            (mkHistoryEntry now source_key source_name
              (newItems (itemsAt σ (getFileName url source_name)) results)))) ∧
    es.foldl histAppend [] = lastN 50 es ∧
    (es.foldl histAppend []).length = min es.length 50 := by
  refine ⟨save_data_history_untouched σ now url results source_key source_name,
    save_data_history_appended σ now url results source_key source_name, ?_, ?_⟩
  · simpa using foldl_histAppend_eq_lastN es [] (by simp)
  · rw [foldl_histAppend_eq_lastN es [] (by simp)]
    simp only [List.nil_append, lastN_length]
    omega

/-- C4 witness: a first save of one new record against an empty store
creates the history file with exactly that entry, and 60 consecutive
productive saves leave a history of length 50. -/
theorem history_maintenance_witness :
    lookupFile (save_data Storage.empty 3 "http://x" [recA] none none).1.historyFiles
        (getFileName "http://x" none)
      = some (histAppend
          ((lookupFile Storage.empty.historyFiles (getFileName "http://x" none)).getD [])
          (mkHistoryEntry 3 none none
            (newItems (itemsAt Storage.empty (getFileName "http://x" none)) [recA]))) ∧
    ((List.replicate 60 (mkHistoryEntry 0 none none [recA])).foldl histAppend []).length
      = 50 := by
  constructor
  · exact (history_maintenance Storage.empty 3 "http://x" [recA] none none []).2.1
      (by decide)
  · have := (history_maintenance Storage.empty 3 "http://x" [recA] none none
      (List.replicate 60 (mkHistoryEntry 0 none none [recA]))).2.2.2
    simpa using this

/-! ## Crawl loop (`base_crawler.py`)

The network and the HTML parser are oracles: `fetch : String → Option Page`
is the outcome of `fetch_page` for each address (`none` = all retries
exhausted), `extract : Page → List Rec` is `extract_search_results`, and
`next : String → Nat → Option String` is `build_next_page_url`. -/

section Crawl

variable {Page : Type}

/-- The `while page_num < max_pages - 1` loop of `crawl_search_url`
(`base_crawler.py` lines 84-102); `fuel` is the number of loop iterations
still allowed (`max_pages - 1 - page_num`). -/
def crawlLoop (fetch : String → Option Page) (extract : Page → List Rec)
    (next : String → Nat → Option String) (startUrl : String) :
    Nat → Nat → List Rec → List Rec
  | 0, _, acc => acc
  | fuel + 1, pageNum, acc =>
    match next startUrl (pageNum + 1) with
    | none => acc
    | some u =>
      match fetch u with
      | none => acc
      | some page =>
        let rs := extract page
        if rs.isEmpty then acc
        else crawlLoop fetch extract next startUrl fuel (pageNum + 1) (acc ++ rs)

/-- Embeds `crawl_search_url(url, max_pages)` (`base_crawler.py` lines 73-104):
fetch the start address (failure ⇒ `[]`), extract page 0, then paginate. -/
def crawl_search_url (fetch : String → Option Page) (extract : Page → List Rec)
    (next : String → Nat → Option String) (url : String) (max_pages : Nat) :
    List Rec :=
  match fetch url with
  | none => []
  | some page => crawlLoop fetch extract next url (max_pages - 1) 0 (extract page)

/-- Modelled from the spec: the per-page extractions of the pagination
loop — the address of page `k` is computed from the ORIGINAL start url and the
page index, and the sequence stops at the first of: `next` returns none,
the fetch fails, or the page extracts zero records. -/
def crawlPages (fetch : String → Option Page) (extract : Page → List Rec)
    (next : String → Nat → Option String) (startUrl : String) :
    Nat → Nat → List (List Rec)
  | 0, _ => []
  | fuel + 1, k =>
    match next startUrl k with
    | none => []
    | some u =>
      match fetch u with
      | none => []
      | some page =>
        let rs := extract page
        if rs.isEmpty then []
        else rs :: crawlPages fetch extract next startUrl fuel (k + 1)

/-- Modelled from the spec: crawl = page-0 extraction followed by the
pagination pages, concatenated in page order. -/
def crawlSpec (fetch : String → Option Page) (extract : Page → List Rec)
    (next : String → Nat → Option String) (url : String) (max_pages : Nat) :
    List Rec :=
  match fetch url with
  | none => []
  | some page =>
    (extract page :: crawlPages fetch extract next url (max_pages - 1) 1).flatten

theorem crawlLoop_eq_join (fetch : String → Option Page)
    (extract : Page → List Rec) (next : String → Nat → Option String)
    (startUrl : String) (fuel : Nat) :
    ∀ (pageNum : Nat) (acc : List Rec),
      crawlLoop fetch extract next startUrl fuel pageNum acc
        = acc ++ (crawlPages fetch extract next startUrl fuel (pageNum + 1)).flatten := by
  induction fuel with
  | zero => intro pageNum acc; simp [crawlLoop, crawlPages]
  | succ fuel ih =>
    intro pageNum acc
    rcases hnext : next startUrl (pageNum + 1) with _ | u
    · simp [crawlLoop, crawlPages, hnext]
    · rcases hfetch : fetch u with _ | page
      · simp [crawlLoop, crawlPages, hnext, hfetch]
      · by_cases hrs : (extract page).isEmpty
        · simp [crawlLoop, crawlPages, hnext, hfetch, hrs]
        · simp [crawlLoop, crawlPages, hnext, hfetch, hrs, ih (pageNum + 1)]

/-- Pointwise agreement of two next-page functions at the start url makes
the loop agree: the loop only ever consults `next` at the original start
address. -/
theorem crawlLoop_next_congr (fetch : String → Option Page)
    (extract : Page → List Rec) (next next' : String → Nat → Option String)
    (startUrl : String) (h : ∀ k, next' startUrl k = next startUrl k)
    (fuel : Nat) :
    ∀ (pageNum : Nat) (acc : List Rec),
      crawlLoop fetch extract next' startUrl fuel pageNum acc
        = crawlLoop fetch extract next startUrl fuel pageNum acc := by
  induction fuel with
  | zero => intro pageNum acc; rfl
  | succ fuel ih =>
    intro pageNum acc
    rcases hnext : next startUrl (pageNum + 1) with _ | u
    · simp [crawlLoop, hnext, h (pageNum + 1)]
    · rcases hfetch : fetch u with _ | page
      · simp [crawlLoop, hnext, hfetch, h (pageNum + 1)]
      · by_cases hrs : (extract page).isEmpty
        · simp [crawlLoop, hnext, hfetch, hrs, h (pageNum + 1)]
        · simp [crawlLoop, hnext, hfetch, hrs, h (pageNum + 1), ih]

/-- C5: the crawl loop returns the concatenation of per-page extractions in
page order, where the address of each subsequent page is computed from the
ORIGINAL start address and the page index and the loop stops at the first
of: no next address, a failed fetch, an empty extraction (`crawlSpec`);
with `max_pages = 1` the next-page function is never consulted; and the
result depends on the next-page function only through its values at the
original start address. -/
theorem crawl_search_url_spec (fetch : String → Option Page)
    (extract : Page → List Rec) (next : String → Nat → Option String)
    (url : String) (max_pages : Nat) :
    crawl_search_url fetch extract next url max_pages
      = crawlSpec fetch extract next url max_pages ∧
    (∀ next' : String → Nat → Option String,
      crawl_search_url fetch extract next' url 1
        = crawl_search_url fetch extract next url 1) ∧
    (∀ next' : String → Nat → Option String,
      (∀ k, next' url k = next url k) →
      crawl_search_url fetch extract next' url max_pages
        = crawl_search_url fetch extract next url max_pages) := by
  refine ⟨?_, ?_, ?_⟩
  · rcases hf : fetch url with _ | page
    · simp [crawl_search_url, crawlSpec, hf]
    · simp [crawl_search_url, crawlSpec, hf, crawlLoop_eq_join]
  · intro next'
    rcases hf : fetch url with _ | page <;>
      simp [crawl_search_url, hf, crawlLoop]
  · intro next' h
    rcases hf : fetch url with _ | page
    · simp [crawl_search_url, hf]
    · simp [crawl_search_url, hf,
        crawlLoop_next_congr fetch extract next next' url h]

/-- C5 witness: two next-page functions that agree at the start address
give identical crawls, at a concrete instance (pages of one record each). -/
theorem crawl_search_url_spec_witness :
    crawl_search_url (fun _ => some ()) (fun _ => [recA])
        (fun b _ => if b = "s" then some "n" else none) "s" 3
      = crawl_search_url (fun _ => some ()) (fun _ => [recA])
        (fun _ _ => some "n") "s" 3 :=
  (crawl_search_url_spec (fun _ => some ()) (fun _ => [recA])
      (fun _ _ => some "n") "s" 3).2.2
    (fun b _ => if b = "s" then some "n" else none)
    (fun _ => by simp)

/-! ## Fetcher (`base_crawler.py`, `BaseCrawler.fetch_page` lines 27-41)

`tryFetch i` is the outcome of the `i`-th GET attempt (`none` = the request
raised). The embedding returns the final result together with the list of
back-off sleeps performed, in order. -/

/-- The `for attempt in range(max_retries)` loop, with `r` attempts still
remaining (`attempt = max_retries - r`). When an attempt fails: if it was
not the last attempt, sleep `2 ** attempt` seconds and continue; on the
last attempt return `None` with no further sleep. -/
def fetchLoop (tryFetch : Nat → Option Page) (max_retries : Nat) :
    Nat → Option Page × List Nat
  | 0 => (none, [])
  | r + 1 =>
    match tryFetch (max_retries - (r + 1)) with
    | some page => (some page, [])
    | none =>
      if r = 0 then (none, [])
      else
        let rest := fetchLoop tryFetch max_retries r
        (rest.1, 2 ^ (max_retries - (r + 1)) :: rest.2)

/-- Embeds `fetch_page(url, max_retries=3)`: run the retry loop from attempt 0. -/
def fetch_page (tryFetch : Nat → Option Page) (max_retries : Nat) :
    Option Page × List Nat :=
  fetchLoop tryFetch max_retries max_retries

/-- C6: the failure policy of `fetch_page` at the fixed bound 3: the first
successful attempt is returned immediately; each failed non-final attempt
is followed by a `2 ^ attempt`-second wait (attempt 0-indexed); after the
third failed attempt the call returns the failure value `none` with no
further wait — and only attempts 0, 1, 2 are ever consulted, so no more
than 3 attempts occur. -/
theorem fetch_page_policy (tryFetch : Nat → Option Page) :
    (fetch_page tryFetch 3
      = match tryFetch 0 with
        | some page => (some page, [])
        | none =>
          match tryFetch 1 with
          | some page => (some page, [2 ^ 0])
          | none =>
            match tryFetch 2 with
            | some page => (some page, [2 ^ 0, 2 ^ 1])
            | none => (none, [2 ^ 0, 2 ^ 1])) ∧
    (∀ g : Nat → Option Page, (∀ i, i < 3 → g i = tryFetch i) →
      fetch_page g 3 = fetch_page tryFetch 3) := by
  have key : ∀ f : Nat → Option Page, fetch_page f 3
      = match f 0 with
        | some page => (some page, [])
        | none =>
          match f 1 with
          | some page => (some page, [2 ^ 0])
          | none =>
            match f 2 with
            | some page => (some page, [2 ^ 0, 2 ^ 1])
            | none => (none, [2 ^ 0, 2 ^ 1]) := by
    intro f
    show fetchLoop f 3 3 = _
    rcases h0 : f 0 with _ | p0
    · rcases h1 : f 1 with _ | p1
      · rcases h2 : f 2 with _ | p2
        all_goals simp [fetchLoop, h0, h1, h2]
      · simp [fetchLoop, h0, h1]
    · simp [fetchLoop, h0]
  refine ⟨key tryFetch, fun g hg => ?_⟩
  rw [key g, key tryFetch, hg 0 (by omega), hg 1 (by omega), hg 2 (by omega)]

/-- C6 witness: all three attempts fail ⇒ result is `none` with waits
`[1, 2]` (that is, `2 ^ 0` then `2 ^ 1`), and an oracle differing only from
attempt 3 onward gives the same outcome. -/
theorem fetch_page_policy_witness :
    fetch_page (fun i => if i = 3 then some () else none) 3
      = fetch_page (fun _ => (none : Option Unit)) 3 ∧
    fetch_page (fun _ => (none : Option Unit)) 3 = (none, [1, 2]) := by
  constructor
  · exact (fetch_page_policy (fun _ => (none : Option Unit))).2
      (fun i => if i = 3 then some () else none)
      (fun i hi => by simp [show i ≠ 3 by omega])
  · rw [(fetch_page_policy (fun _ => (none : Option Unit))).1]
    rfl

end Crawl

/-! ## Substrings (Python `in` on strings) -/

/-- Tests whether `pat` occurs as a contiguous substring of `l`. -/
def listContainsSub (pat l : List Char) : Bool :=
  l.tails.any (fun t => pat.isPrefixOf t)

/-- Python `pat in s` on strings. -/
def strContains (s pat : String) : Bool :=
  listContainsSub pat.data s.data

theorem string_data_append (a b : String) :
    (a ++ b).data = a.data ++ b.data := rfl

theorem listContainsSub_spec {pat l : List Char} :
    listContainsSub pat l = true ↔ pat <:+: l := by
  rw [listContainsSub, List.any_eq_true]
  constructor
  · rintro ⟨t, ht, hpre⟩
    rw [List.mem_tails] at ht
    exact List.infix_iff_prefix_suffix.mpr
      ⟨t, List.isPrefixOf_iff_prefix.mp hpre, ht⟩
  · intro h
    obtain ⟨t, hpre, hsuf⟩ := List.infix_iff_prefix_suffix.mp h
    exact ⟨t, (List.mem_tails _ _).mpr hsuf, List.isPrefixOf_iff_prefix.mpr hpre⟩

theorem strContains_append_middle (a t b : String) :
    strContains (a ++ t ++ b) t = true := by
  rw [strContains, listContainsSub_spec, string_data_append, string_data_append]
  exact ⟨a.data, b.data, by simp⟩

/-! ## Crawler factory (`crawler_factory.py`) -/

/-- The keys of `CrawlerFactory._crawlers` (`crawler_factory.py` lines
11-15): only `sichuan_fgw` is registered. -/
def registeredTypes : List String := ["sichuan_fgw"]

/-- Comma-separated rendering of the available-types list inside the error
message (Python renders `available_types` via the f-string; the element
quotes of the Python list repr are immaterial and omitted here). -/
def renderTypes : List String → String
  | [] => ""
  | [t] => t
  | t :: ts => t ++ ", " ++ renderTypes ts

/-- The `ValueError` message of `create_crawler`
(`crawler_factory.py` line 22). -/
def unsupportedMsg (t : String) (avail : List String) : String :=
  "不支持的爬虫类型: " ++ t ++ ("，可用类型: [" ++ (renderTypes avail ++ "]"))

/-- Embeds `CrawlerFactory.create_crawler` (`crawler_factory.py` lines 17-26):
raises (here: returns an error) before any other activity when the type is
not registered. -/
def create_crawler (t : String) : Except String Unit :=
  if t ∈ registeredTypes then .ok () else .error (unsupportedMsg t registeredTypes)

theorem unsupportedMsg_names_type (t : String) (avail : List String) :
    strContains (unsupportedMsg t avail) t = true := by
  rw [unsupportedMsg]
  exact strContains_append_middle "不支持的爬虫类型: " t _

theorem infix_append_outer {α : Type} {l m : List α} (h : l <:+: m)
    (a b : List α) : l <:+: a ++ m ++ b := by
  obtain ⟨s, t, rfl⟩ := h
  exact ⟨a ++ s, t ++ b, by simp⟩

theorem renderTypes_sub {a : String} {l : List String} (ha : a ∈ l) :
    a.data <:+: (renderTypes l).data := by
  induction l with
  | nil => simp at ha
  | cons t ts ih =>
    rw [List.mem_cons] at ha
    rcases ts with _ | ⟨t', ts'⟩
    · rcases ha with rfl | ha
      · exact List.infix_rfl
      · simp at ha
    · have hr : renderTypes (t :: t' :: ts') = t ++ ", " ++ renderTypes (t' :: ts') := rfl
      rcases ha with rfl | ha
      · rw [hr]
        exact ⟨[], ", ".data ++ (renderTypes (t' :: ts')).data,
          by simp [string_data_append]⟩
      · rw [hr]
        obtain ⟨s, u, hsu⟩ := ih ha
        exact ⟨(t ++ ", ").data ++ s, u, by
          rw [string_data_append, List.append_assoc, List.append_assoc, ← List.append_assoc s,
            hsu]
          rfl⟩

theorem unsupportedMsg_lists_available (t : String) (avail : List String) :
    ∀ a ∈ avail, strContains (unsupportedMsg t avail) a = true := by
  intro a ha
  rw [strContains, listContainsSub_spec]
  have hmsg : (unsupportedMsg t avail).data
      = ("不支持的爬虫类型: " ++ t ++ "，可用类型: [").data
          ++ (renderTypes avail).data ++ "]".data := by
    simp [unsupportedMsg, string_data_append]
  rw [hmsg]
  exact infix_append_outer (renderTypes_sub ha) _ _

/-! ## Runner (`crawler_manager.py`, `run_crawler` lines 103-146; the same
per-source logic appears in `main.py` lines 93-126) -/

/-- One entry of the enabled `search_urls` configuration. -/
structure SourceCfg where
  key : String
  name : String
  url : String
  crawler_type : String
deriving DecidableEq, Repr

/-- The per-source `config_result` dict (`crawler_manager.py` lines
91-101). -/
structure ConfigResult where
  key : String
  name : String
  url : String
  crawler_type : String
  crawled_count : Nat
  new_count : Nat
  total_count : Nat
  new_items : List Rec
  error : Option String
deriving DecidableEq, Repr

/-- The initial `config_result` for a source: zero counts, no error. -/
def initResult (s : SourceCfg) : ConfigResult :=
  ⟨s.key, s.name, s.url, s.crawler_type, 0, 0, 0, [], none⟩

/-- Processing of one configured source (`crawler_manager.py` lines
103-146): construct the crawler — an unregistered type raises, the Runner
catches and records `str(e)` with nothing else happening — then crawl
(`crawlOf` is the oracle giving the outcome of `crawl_search_url` for the
source) and call `save_data` only when the crawl returned at least one
record. Returns the updated storage, the `config_result`, and the per-source
contribution to `total_all_items` and `total_new_items`. -/
def processSource (crawlOf : SourceCfg → List Rec) (now : Nat)
    (σ : Storage) (s : SourceCfg) : Storage × ConfigResult × Nat × Nat :=
  match create_crawler s.crawler_type with
  | .error e => (σ, { initResult s with error := some e }, 0, 0)
  | .ok _ =>
    let results := crawlOf s
    if results.isEmpty then
      (σ, { initResult s with crawled_count := results.length }, 0, 0)
    else
      let out := save_data σ now s.url results (some s.key) (some s.name)
      (out.1,
       { initResult s with
          crawled_count := results.length,
          new_count := out.2.2.length,
          total_count := out.2.1.length,
          new_items := out.2.2 },
       out.2.1.length, out.2.2.length)

/-- The `for url_config in search_urls` loop of `run_crawler`: threads the
storage through the sources in configured order, collects one
`config_result` per source, and sums the two run totals. -/
def runSources (crawlOf : SourceCfg → List Rec) (now : Nat) :
    Storage → List SourceCfg → Storage × List ConfigResult × Nat × Nat
  | σ, [] => (σ, [], 0, 0)
  | σ, s :: ss =>
    let head := processSource crawlOf now σ s
    let rest := runSources crawlOf now head.1 ss
    (rest.1, head.2.1 :: rest.2.1,
     head.2.2.1 + rest.2.2.1, head.2.2.2 + rest.2.2.2)

theorem runSources_append (crawlOf : SourceCfg → List Rec) (now : Nat)
    (σ : Storage) (l₁ l₂ : List SourceCfg) :
    runSources crawlOf now σ (l₁ ++ l₂)
      = ((runSources crawlOf now (runSources crawlOf now σ l₁).1 l₂).1,
         (runSources crawlOf now σ l₁).2.1
           ++ (runSources crawlOf now (runSources crawlOf now σ l₁).1 l₂).2.1,
         (runSources crawlOf now σ l₁).2.2.1
           + (runSources crawlOf now (runSources crawlOf now σ l₁).1 l₂).2.2.1,
         (runSources crawlOf now σ l₁).2.2.2
           + (runSources crawlOf now (runSources crawlOf now σ l₁).1 l₂).2.2.2) := by
  induction l₁ generalizing σ with
  | nil => simp [runSources]
  | cons s ss ih =>
    rw [List.cons_append, runSources, runSources, ih]
    simp [runSources, Nat.add_assoc]

theorem runSources_cons (crawlOf : SourceCfg → List Rec) (now : Nat)
    (σ : Storage) (s : SourceCfg) (ss : List SourceCfg) :
    runSources crawlOf now σ (s :: ss)
      = ((runSources crawlOf now (processSource crawlOf now σ s).1 ss).1,
         (processSource crawlOf now σ s).2.1
           :: (runSources crawlOf now (processSource crawlOf now σ s).1 ss).2.1,
         (processSource crawlOf now σ s).2.2.1
           + (runSources crawlOf now (processSource crawlOf now σ s).1 ss).2.2.1,
         (processSource crawlOf now σ s).2.2.2
           + (runSources crawlOf now (processSource crawlOf now σ s).1 ss).2.2.2) := rfl

/-- C7: an unregistered crawler type fails fast at construction time: the
recorded error message names the unsupported type and lists every available
type, the outcome is independent of the crawl oracle (no network activity)
and leaves the storage untouched, and the Runner records the error on that
per-source `config_result` and processes all surrounding sources exactly as
it would without the failing source, with unchanged totals. -/
theorem unregistered_type_isolation (s : SourceCfg)
    (hs : s.crawler_type ∉ registeredTypes)
    (crawlOf : SourceCfg → List Rec) (now : Nat) (σ : Storage)
    (pre post : List SourceCfg) :
    processSource crawlOf now σ s
      = (σ, { initResult s with
          error := some (unsupportedMsg s.crawler_type registeredTypes) }, 0, 0) ∧
    strContains (unsupportedMsg s.crawler_type registeredTypes) s.crawler_type
      = true ∧
    (∀ t ∈ registeredTypes,
      strContains (unsupportedMsg s.crawler_type registeredTypes) t = true) ∧
    (∀ crawlOf' : SourceCfg → List Rec,
      processSource crawlOf' now σ s = processSource crawlOf now σ s) ∧
    runSources crawlOf now σ (pre ++ s :: post)
      = ((runSources crawlOf now (runSources crawlOf now σ pre).1 post).1,
         (runSources crawlOf now σ pre).2.1
           ++ ({ initResult s with
               error := some (unsupportedMsg s.crawler_type registeredTypes) }
             :: (runSources crawlOf now (runSources crawlOf now σ pre).1 post).2.1),
         (runSources crawlOf now σ pre).2.2.1
           + (runSources crawlOf now (runSources crawlOf now σ pre).1 post).2.2.1,
         (runSources crawlOf now σ pre).2.2.2
           + (runSources crawlOf now (runSources crawlOf now σ pre).1 post).2.2.2) := by
  have hps : ∀ (c' : SourceCfg → List Rec) (σ' : Storage),
      processSource c' now σ' s
        = (σ', { initResult s with
            error := some (unsupportedMsg s.crawler_type registeredTypes) }, 0, 0) := by
    intro c' σ'
    rw [processSource, create_crawler, if_neg hs]
  refine ⟨hps crawlOf σ, unsupportedMsg_names_type _ _,
    unsupportedMsg_lists_available _ _,
    fun c' => (hps c' σ).trans (hps crawlOf σ).symm, ?_⟩
  rw [runSources_append, runSources_cons, hps crawlOf (runSources crawlOf now σ pre).1]
  simp

/-- C9: the Runner invokes `save_data` only when the crawl yielded at least
one record: for a registered source whose crawl returns `[]`, the whole
storage state (data files and history files, hence also `last_updated`) is
left untouched, the `config_result` of the source carries zero counts and no
error, and it contributes 0 to both aggregated totals. -/
theorem empty_crawl_untouched (crawlOf : SourceCfg → List Rec) (now : Nat)
    (σ : Storage) (s : SourceCfg) (hreg : s.crawler_type ∈ registeredTypes)
    (hc : crawlOf s = []) (ss : List SourceCfg) :
    processSource crawlOf now σ s = (σ, initResult s, 0, 0) ∧
    runSources crawlOf now σ (s :: ss)
      = ((runSources crawlOf now σ ss).1,
         initResult s :: (runSources crawlOf now σ ss).2.1,
         (runSources crawlOf now σ ss).2.2.1,
         (runSources crawlOf now σ ss).2.2.2) := by
  have h1 : processSource crawlOf now σ s = (σ, initResult s, 0, 0) := by
    rw [processSource, create_crawler, if_pos hreg]
    simp [hc, initResult]
  refine ⟨h1, ?_⟩
  rw [runSources_cons, h1]
  simp

/-- C7 witness: the scenario from the spec — source type `unknown_site` is not
registered; its processing records the error message and changes nothing. -/
theorem unregistered_type_isolation_witness :
    processSource (fun _ => [recA]) 0 Storage.empty ⟨"k", "n", "u", "unknown_site"⟩
      = (Storage.empty, { initResult ⟨"k", "n", "u", "unknown_site"⟩ with
          error := some (unsupportedMsg "unknown_site" registeredTypes) }, 0, 0) :=
  (unregistered_type_isolation ⟨"k", "n", "u", "unknown_site"⟩ (by decide)
    (fun _ => [recA]) 0 Storage.empty [] []).1

/-- C9 witness: a registered source whose crawl returns nothing leaves the
empty storage empty with a zeroed result. -/
theorem empty_crawl_untouched_witness :
    processSource (fun _ => []) 0 Storage.empty ⟨"k", "n", "u", "sichuan_fgw"⟩
      = (Storage.empty, initResult ⟨"k", "n", "u", "sichuan_fgw"⟩, 0, 0) :=
  (empty_crawl_untouched (fun _ => []) 0 Storage.empty
    ⟨"k", "n", "u", "sichuan_fgw"⟩ (by decide) rfl []).1

/-! ## Export (`storage.py`, `DataStorage.export_to_csv` lines 145-162) -/

/-- The header row written by `export_to_csv` (`storage.py` line 153). -/
def csvHeader : List String := ["标题", "链接地址", "发现时间"]

/-- Embeds `export_to_csv(url, output_file)`, modelled as the list of rows
written: it calls `load_existing_data(url)` WITHOUT a source name — so it
always reads the url-hash-derived file — then writes the header row
followed by one row `[title, url, discovered_at or ""]` per loaded item. -/
def export_to_csv (σ : Storage) (url : String) : List (List String) :=
  let items := ((lookupFile σ.dataFiles (getFileName url none)).map (·.items)).getD []
  csvHeader :: items.map (fun it => [it.title, it.url, it.discovered_at.getD ""])

/-- C8 counterexample: save one record for a source whose file identity is
derived from its display name `src`; the store then holds that record for
the source, yet exporting by the url of the source writes the header row only —
not one row per stored record. -/
theorem export_misses_name_keyed_store :
    itemsAt (save_data Storage.empty 0 "http://x" [recA] (some "k") (some "src")).1
        (getFileName "http://x" (some "src")) = [recA] ∧
    export_to_csv (save_data Storage.empty 0 "http://x" [recA] (some "k") (some "src")).1
        "http://x" = [csvHeader] ∧
    (export_to_csv (save_data Storage.empty 0 "http://x" [recA] (some "k") (some "src")).1
        "http://x").length
      ≠ 1 + (itemsAt (save_data Storage.empty 0 "http://x" [recA] (some "k") (some "src")).1
          (getFileName "http://x" (some "src"))).length := by
  refine ⟨?_, ?_, ?_⟩ <;> decide

/-- C8 (amended): export writes the header row followed by exactly one row
(title, url, discovered_at-or-empty) per record stored under the url-HASH
file identity. A source stored under a name-derived identity is not read:
saving with a non-empty display name never touches the hash-keyed file, and
when no hash-keyed file exists the export output is the header row alone. -/
theorem export_to_csv_rows (σ : Storage) (url : String) :
    export_to_csv σ url
      = csvHeader :: (itemsAt σ (FileKey.byHash url)).map
          (fun it => [it.title, it.url, it.discovered_at.getD ""]) ∧
    (∀ (now : Nat) (results : List Rec) (sk : Option String) (n : String),
      n ≠ "" →
      lookupFile (save_data σ now url results sk (some n)).1.dataFiles
          (FileKey.byHash url)
        = lookupFile σ.dataFiles (FileKey.byHash url)) ∧
    (lookupFile σ.dataFiles (FileKey.byHash url) = none →
      export_to_csv σ url = [csvHeader]) := by
  refine ⟨rfl, ?_, ?_⟩
  · intro now results sk n hn
    rw [save_data_state]
    have hkey : getFileName url (some n) = FileKey.byName (cleanFileName n) := by
      rw [getFileName, if_neg hn]
    rw [hkey]
    exact lookupFile_writeFile_other _ _ _ _ (by simp)
  · intro h
    rw [export_to_csv, getFileName, h]
    rfl

/-- C8 amended-claim witness: a save under the display name `src` leaves
the hash-keyed file for the url absent, and the export of the empty store
is the bare header. -/
theorem export_to_csv_rows_witness :
    lookupFile (save_data Storage.empty 0 "http://x" [recA] none (some "src")).1.dataFiles
        (FileKey.byHash "http://x")
      = lookupFile Storage.empty.dataFiles (FileKey.byHash "http://x") ∧
    export_to_csv Storage.empty "http://x" = [csvHeader] :=
  ⟨(export_to_csv_rows Storage.empty "http://x").2.1 0 [recA] none "src" (by decide),
   (export_to_csv_rows Storage.empty "http://x").2.2 rfl⟩

/-! ## Next-page url builders (`sichuan_fgw_crawler.py` lines 98-107,
`example_other_site_crawler.py` lines 109-125) -/

set_option linter.unusedVariables false in
/-- Embeds `re.sub(pat + r"\d+", rep, s)` for a literal parameter name `pat`:
leftmost non-overlapping replacement of every occurrence of `pat`
immediately followed by one or more digits; `rep` is the full replacement
text (`pageNum={page_num}` etc.). -/
def reSubNum (pat rep : List Char) : List Char → List Char
  | [] => []
  | c :: cs =>
    if hm : pat ≠ [] ∧ pat.isPrefixOf (c :: cs) then
      match hrest : (c :: cs).drop pat.length with
      | d :: rest =>
        if d.isDigit then
          rep ++ reSubNum pat rep (rest.dropWhile Char.isDigit)
        else
          c :: reSubNum pat rep cs
      | [] => c :: reSubNum pat rep cs
    else
      c :: reSubNum pat rep cs
termination_by l => l.length
decreasing_by
  · have hlen := congrArg List.length hrest
    have hle := (List.dropWhile_suffix Char.isDigit (l := rest)).sublist.length_le
    have hpat : 1 ≤ pat.length := by
      rcases pat with _ | ⟨p, ps⟩
      · exact absurd rfl hm.1
      · simp
    simp only [List.length_drop, List.length_cons] at hlen
    simp only [List.length_cons]
    omega
  · simp
  · simp
  · simp

/-- Embeds `SichuanFGWCrawler.build_next_page_url` (`sichuan_fgw_crawler.py` lines
98-107): replace an existing `pageNum=<digits>` query parameter, otherwise
append one (`?` or `&` depending on whether the url already has a query);
both branches produce an address. -/
def sichuan_build_next_page_url (base_url : String) (page_num : Nat) :
    Option String :=
  if strContains base_url "pageNum=" then
    some (String.mk (reSubNum "pageNum=".data ("pageNum=" ++ toString page_num).data
      base_url.data))
  else
    some (base_url ++ (if strContains base_url "?" then "&" else "?")
      ++ "pageNum=" ++ toString page_num)

/-- Embeds `ExampleOtherSiteCrawler.build_next_page_url`
(`example_other_site_crawler.py` lines 109-125): substitute a `page=` or
`p=` parameter, otherwise append `page=<n>`; every branch produces an
address. -/
def example_build_next_page_url (base_url : String) (page_num : Nat) :
    Option String :=
  if strContains base_url "page=" then
    some (String.mk (reSubNum "page=".data ("page=" ++ toString page_num).data
      base_url.data))
  else if strContains base_url "p=" then
    some (String.mk (reSubNum "p=".data ("p=" ++ toString page_num).data
      base_url.data))
  else
    some (base_url ++ (if strContains base_url "?" then "&" else "?")
      ++ "page=" ++ toString page_num)

section TotalCrawl

variable {Page : Type}

/-- Modelled from the spec side of the claim: the pagination loop under a
TOTAL next-page function — the "no next page" stop branch does not exist,
so the loop can stop only via the page bound, a fetch failure, or an empty
extraction. -/
def crawlLoopTotal (fetch : String → Option Page) (extract : Page → List Rec)
    (next : String → Nat → String) (startUrl : String) :
    Nat → Nat → List Rec → List Rec
  | 0, _, acc => acc
  | fuel + 1, pageNum, acc =>
    match fetch (next startUrl (pageNum + 1)) with
    | none => acc
    | some page =>
      let rs := extract page
      if rs.isEmpty then acc
      else crawlLoopTotal fetch extract next startUrl fuel (pageNum + 1) (acc ++ rs)

/-- Modelled from the spec side of the claim: `crawl_search_url` for a
total next-page function. -/
def crawlTotal (fetch : String → Option Page) (extract : Page → List Rec)
    (next : String → Nat → String) (url : String) (max_pages : Nat) :
    List Rec :=
  match fetch url with
  | none => []
  | some page => crawlLoopTotal fetch extract next url (max_pages - 1) 0 (extract page)

theorem crawlLoop_eq_total (fetch : String → Option Page)
    (extract : Page → List Rec) (nextO : String → Nat → Option String)
    (nextT : String → Nat → String)
    (h : ∀ b k, nextO b k = some (nextT b k)) (startUrl : String)
    (fuel : Nat) :
    ∀ (pageNum : Nat) (acc : List Rec),
      crawlLoop fetch extract nextO startUrl fuel pageNum acc
        = crawlLoopTotal fetch extract nextT startUrl fuel pageNum acc := by
  induction fuel with
  | zero => intro pageNum acc; rfl
  | succ fuel ih =>
    intro pageNum acc
    rcases hfetch : fetch (nextT startUrl (pageNum + 1)) with _ | page
    · simp [crawlLoop, crawlLoopTotal, h startUrl (pageNum + 1), hfetch]
    · by_cases hrs : (extract page).isEmpty
      · simp [crawlLoop, crawlLoopTotal, h startUrl (pageNum + 1), hfetch, hrs]
      · simp [crawlLoop, crawlLoopTotal, h startUrl (pageNum + 1), hfetch, hrs, ih]

theorem crawl_eq_total (fetch : String → Option Page)
    (extract : Page → List Rec) (nextO : String → Nat → Option String)
    (nextT : String → Nat → String)
    (h : ∀ b k, nextO b k = some (nextT b k)) (url : String)
    (max_pages : Nat) :
    crawl_search_url fetch extract nextO url max_pages
      = crawlTotal fetch extract nextT url max_pages := by
  rcases hf : fetch url with _ | page
  · simp [crawl_search_url, crawlTotal, hf]
  · simp [crawl_search_url, crawlTotal, hf,
      crawlLoop_eq_total fetch extract nextO nextT h url]

end TotalCrawl

theorem sichuan_next_isSome (b : String) (n : Nat) :
    (sichuan_build_next_page_url b n).isSome = true := by
  rw [sichuan_build_next_page_url]
  by_cases h : strContains b "pageNum=" = true <;> simp [h]

theorem example_next_isSome (b : String) (n : Nat) :
    (example_build_next_page_url b n).isSome = true := by
  rw [example_build_next_page_url]
  by_cases h1 : strContains b "page=" = true
  · simp [h1]
  · by_cases h2 : strContains b "p=" = true <;> simp [h1, h2]

/-- C10: both registered `build_next_page_url` implementations return an
address for every base url and page number — never the "no next page"
signal — so a crawl driven by either of them coincides with the crawl that
has no none-branch at all: it can stop only via the `max_pages` bound, a
fetch failure, or an empty extraction. -/
theorem build_next_page_url_never_none :
    (∀ (b : String) (n : Nat), (sichuan_build_next_page_url b n).isSome = true) ∧
    (∀ (b : String) (n : Nat), (example_build_next_page_url b n).isSome = true) ∧
    (∀ (Page : Type) (fetch : String → Option Page) (extract : Page → List Rec)
        (url : String) (max_pages : Nat),
      crawl_search_url fetch extract sichuan_build_next_page_url url max_pages
        = crawlTotal fetch extract
            (fun b k => (sichuan_build_next_page_url b k).getD "") url max_pages) ∧
    (∀ (Page : Type) (fetch : String → Option Page) (extract : Page → List Rec)
        (url : String) (max_pages : Nat),
      crawl_search_url fetch extract example_build_next_page_url url max_pages
        = crawlTotal fetch extract
            (fun b k => (example_build_next_page_url b k).getD "") url max_pages) := by
  have hgetD : ∀ (f : String → Nat → Option String),
      (∀ b n, (f b n).isSome = true) →
      ∀ b k, f b k = some ((f b k).getD "") := by
    intro f hf b k
    rcases hk : f b k with _ | u
    · have := hf b k
      rw [hk] at this
      simp at this
    · rfl
  refine ⟨sichuan_next_isSome, example_next_isSome, ?_, ?_⟩
  · intro Page fetch extract url max_pages
    exact crawl_eq_total fetch extract _ _ (hgetD _ sichuan_next_isSome) url max_pages
  · intro Page fetch extract url max_pages
    exact crawl_eq_total fetch extract _ _ (hgetD _ example_next_isSome) url max_pages

end SuperviseInfo
